import Mathlib

/-!
Shallow embedding of `src/main.py` (gh-top-projects): a batch CLI that
queries the GitHub search API with language/star/fork filters, optionally
enriches each repository with contributor and recent-commit counts, and
writes the results to a CSV file.

HTTP is modelled by oracles: a `CountResponse` for the count query, a
page-indexed family of `SearchResponse`s for the paginated search, and a
position-indexed family of `SubOutcome`s for the two enrichment
sub-requests of each repository (a `SubOutcome` is either a normal HTTP
response, reduced to its status code and the length of the returned JSON
array, or a raised exception - which is how `requests` surfaces a
timeout).  Observable behaviour (requests issued, lines printed, files
written) is recorded as a list of `Effect`s.  The `while True` pagination
loop of `fetch_repositories` is given explicit fuel; a run that exhausts
its fuel is `none`, so termination statements are `= some ...` results.
-/

namespace GhTopProjects

/-- Response of the search endpoint used by `get_repo_count`
(`response.json().get("total_count", 0)` together with the pieces the
code prints: the status code, the error body text, and the rate-limit
line that `log_rate_limit_info` formats from the response headers). -/
structure CountResponse where
  status_code : Nat
  total_count : Nat
  text : String
  rate_limit_line : String
deriving DecidableEq, Repr

/-- Response of one page of the search endpoint used by
`fetch_repositories`: status code, the `items` array, and the error body
text. -/
structure SearchResponse (α : Type) where
  status_code : Nat
  items : List α
  text : String
deriving Repr

/-- Response of the `/rate_limit` endpoint used by
`display_final_rate_limit`, with the formatted report line abstracted as
a string. -/
structure RateResponse where
  status_code : Nat
  line : String
deriving DecidableEq, Repr

/-- Outcome of one enrichment sub-request in `fetch_additional_details`:
either the request raised an exception (`requests` raises on a timeout,
so a timeout is a `throws`), or it returned a response whose JSON body is
an array of `body_len` elements. -/
inductive SubOutcome where
  | throws (msg : String)
  | ok (status_code : Nat) (body_len : Nat)
deriving DecidableEq, Repr

/-- The fields of one search-result item that `main` and
`fetch_additional_details` read. -/
structure Repo where
  name : String
  stargazers_count : Nat
  forks_count : Nat
  html_url : String
  description : Option String
  archived : Bool
  contributors_url : String
  commits_url : String
deriving DecidableEq, Repr

/-- The `detailed_repo` dict built in step 3 of `main`, one per fetched
repository; its keys are exactly the CSV `fieldnames`. -/
structure RepositoryDetail where
  name : String
  stars : Nat
  forks : Nat
  url : String
  description : Option String
  archived : Bool
  contributors_count : Nat
  commits_last_3_months : Nat
deriving DecidableEq, Repr

/-- The `details` dict returned by `fetch_additional_details`. -/
structure Details where
  contributors_count : Nat
  commits_last_3_months : Nat
deriving DecidableEq, Repr

abbrev Headers := List (String × String)

/-- One observable step of a run: an HTTP request (tagged with the
headers it was sent with), a printed line, or a file write. -/
inductive Effect where
  | countRequest (headers : Headers)
  | searchRequest (page : Nat) (headers : Headers)
  | contribRequest (url : String) (headers : Headers)
  | commitsRequest (url : String) (headers : Headers)
  | rateLimitRequest (headers : Headers)
  | fileWrite (path : String) (content : String)
  | printLine (s : String)
deriving DecidableEq, Repr

def Effect.isEnrichmentRequest : Effect → Bool
  | .contribRequest _ _ => true
  | .commitsRequest _ _ => true
  | _ => false

def Effect.isFileWrite : Effect → Bool
  | .fileWrite _ _ => true
  | _ => false

def Effect.isSearchRequest : Effect → Bool
  | .searchRequest _ _ => true
  | _ => false

def Effect.isCountRequest : Effect → Bool
  | .countRequest _ => true
  | _ => false

def Effect.isPrint : Effect → Bool
  | .printLine _ => true
  | _ => false

/-- The headers a request effect was sent with (`none` for the
non-request effects). -/
def Effect.headers? : Effect → Option Headers
  | .countRequest h => some h
  | .searchRequest _ h => some h
  | .contribRequest _ h => some h
  | .commitsRequest _ h => some h
  | .rateLimitRequest h => some h
  | .fileWrite _ _ => none
  | .printLine _ => none

/-- `get_headers` of `src/main.py`: read `GITHUB_TOKEN` from the
environment; a missing variable and the empty string are both falsy in
Python, so only a non-empty value yields an `Authorization` header. -/
def get_headers (getenv : String → Option String) : Headers :=
  match getenv "GITHUB_TOKEN" with
  | some token => if token.isEmpty then [] else [("Authorization", "token " ++ token)]
  | none => []

/-- `get_repo_count` of `src/main.py`: one search request, the
rate-limit log line, then either the reported `total_count` or - on a
status other than 200 - an error line and the value 0. -/
def get_repo_count (getenv : String → Option String) (resp : CountResponse) :
    Nat × List Effect :=
  if resp.status_code = 200 then
    (resp.total_count,
      [Effect.countRequest (get_headers getenv), Effect.printLine resp.rate_limit_line])
  else
    (0, [Effect.countRequest (get_headers getenv), Effect.printLine resp.rate_limit_line,
      Effect.printLine ("Error: " ++ toString resp.status_code ++ " - " ++ resp.text)])

/-- The `while True` loop of `fetch_repositories`, with explicit fuel:
request the current page; on status 200 extend the accumulator and
either stop (short page) or continue with the next page; on any other
status print an error line and stop with what was accumulated. -/
def fetchLoop {α : Type} (getenv : String → Option String)
    (server : Nat → SearchResponse α) :
    Nat → Nat → List α → List Effect → Option (List α × List Effect)
  | 0, _, _, _ => none
  | fuel + 1, page, acc, effs =>
    if (server page).status_code = 200 then
      if (server page).items.length < 100 then
        some (acc ++ (server page).items,
          effs ++ [Effect.searchRequest page (get_headers getenv),
            Effect.printLine ("Fetched " ++ toString (acc ++ (server page).items).length
              ++ " repositories so far...")])
      else
        fetchLoop getenv server fuel (page + 1) (acc ++ (server page).items)
          (effs ++ [Effect.searchRequest page (get_headers getenv),
            Effect.printLine ("Fetched " ++ toString (acc ++ (server page).items).length
              ++ " repositories so far...")])
    else
      some (acc, effs ++ [Effect.searchRequest page (get_headers getenv),
        Effect.printLine ("Error: " ++ toString (server page).status_code ++ " - "
          ++ (server page).text)])

/-- `fetch_repositories` of `src/main.py`: run the pagination loop from
page 1 with an empty accumulator. -/
def fetch_repositories {α : Type} (getenv : String → Option String)
    (server : Nat → SearchResponse α) (fuel : Nat) : Option (List α × List Effect) :=
  fetchLoop getenv server fuel 1 [] []

/-- The count a `try` block of `fetch_additional_details` leaves behind:
the dict entry starts at 0 and is overwritten by the body length only
when the sub-request returned with status 200; an exception leaves it at
0, and so does any non-200 status. -/
def sub_count : SubOutcome → Nat
  | SubOutcome.ok s n => if s = 200 then n else 0
  | SubOutcome.throws _ => 0

/-- The log line a `try` block of `fetch_additional_details` produces:
only an exception is caught and printed; a non-200 response produces no
output. -/
def sub_log (what : String) (name : String) : SubOutcome → List Effect
  | SubOutcome.ok _ _ => []
  | SubOutcome.throws msg =>
    [Effect.printLine ("Error fetching " ++ what ++ " for " ++ name ++ ": " ++ msg)]

/-- `fetch_additional_details` of `src/main.py`: one request to the
repository's `contributors_url` and one to its `commits_url` (with the
`\x7b/sha\x7d` placeholder stripped), each guarded by its own
`try`/`except`; the returned dict defaults both counts to 0. -/
def fetch_additional_details (getenv : String → Option String) (repo : Repo)
    (contrib commits : SubOutcome) : Details × List Effect :=
  let headers := get_headers getenv
  (⟨sub_count contrib, sub_count commits⟩,
    [Effect.contribRequest repo.contributors_url headers]
      ++ sub_log "contributors" repo.name contrib
      ++ [Effect.commitsRequest (repo.commits_url.replace "\x7b/sha\x7d" "") headers]
      ++ sub_log "commits" repo.name commits)

/-- The `detailed_repo` dict of step 3 of `main`, built from one search
item and its enrichment counts. -/
def make_detailed_repo (repo : Repo) (details : Details) : RepositoryDetail :=
  ⟨repo.name, repo.stargazers_count, repo.forks_count, repo.html_url,
    repo.description, repo.archived,
    details.contributors_count, details.commits_last_3_months⟩

/-- The `for index, repo in enumerate(repos, start=1)` loop of step 3 of
`main`: enrich each repository with its own pair of sub-request
outcomes (indexed by its 1-based position) and print a progress line. -/
def process_repos (getenv : String → Option String) (total : Nat) :
    List Repo → Nat → (Nat → SubOutcome) → (Nat → SubOutcome) →
      List RepositoryDetail × List Effect
  | [], _, _, _ => ([], [])
  | repo :: rest, index, contrib, commits =>
    let fad := fetch_additional_details getenv repo (contrib index) (commits index)
    let tail := process_repos getenv total rest (index + 1) contrib commits
    (make_detailed_repo repo fad.1 :: tail.1,
      fad.2
        ++ [Effect.printLine ("Processed " ++ toString index ++ "/" ++ toString total
              ++ " repositories...")]
        ++ tail.2)

/-- `display_final_rate_limit` of `src/main.py`: one request to the
rate-limit endpoint, then either the formatted report or a fallback
message. -/
def display_final_rate_limit (getenv : String → Option String)
    (resp : RateResponse) : List Effect :=
  if resp.status_code = 200 then
    [Effect.rateLimitRequest (get_headers getenv), Effect.printLine resp.line]
  else
    [Effect.rateLimitRequest (get_headers getenv),
      Effect.printLine "Unable to fetch final rate limit information."]

/-- The CSV `fieldnames` list of `save_to_csv`. -/
def fieldnames : List String :=
  ["name", "stars", "forks", "url", "description", "archived",
    "contributors_count", "commits_last_3_months"]

/-- Python `csv` QUOTE_MINIMAL: a field is quoted exactly when it
contains the delimiter, the quote character, or a line-break
character. -/
def needs_quote (s : String) : Bool :=
  s.any (fun c => c == ',' || c == '"' || c == '\n' || c == '\r')

/-- Quote one CSV field: wrap in quotes and double every embedded quote
character, but only when `needs_quote` holds. -/
def csv_quote (s : String) : String :=
  if needs_quote s then "\"" ++ s.replace "\"" "\"\"" ++ "\"" else s

/-- One CSV record as the `csv` module writes it: comma-separated quoted
fields followed by the default `\r\n` line terminator. -/
def csv_row (fields : List String) : String :=
  String.intercalate "," (fields.map csv_quote) ++ "\r\n"

/-- Python `str()` of a bool, as the `csv` writer renders the `archived`
field. -/
def py_str_bool (b : Bool) : String := if b then "True" else "False"

/-- The field strings of one `RepositoryDetail` in `fieldnames` order;
`None` (a missing description) is written as the empty string. -/
def detail_fields (r : RepositoryDetail) : List String :=
  [r.name, toString r.stars, toString r.forks, r.url, r.description.getD "",
    py_str_bool r.archived, toString r.contributors_count,
    toString r.commits_last_3_months]

/-- `save_to_csv` of `src/main.py` as the content of the written file:
`writeheader()` then one `writerow` per record, in order.  Opening with
`mode="w"` truncates, so this string is the whole resulting file. -/
def save_to_csv (repos : List RepositoryDetail) : String :=
  repos.foldl (fun acc r => acc ++ csv_row (detail_fields r)) (csv_row fieldnames)

/-- Concatenation of a list of already-terminated CSV records, in
order. -/
def concat_rows : List String → String
  | [] => ""
  | r :: rest => r ++ concat_rows rest

/-- A file system as a map from path to file content. -/
def FileSystem := String → Option String

/-- Writing a file with `open(path, mode="w")`: the new content replaces
whatever was at the path before. -/
def fs_write (fs : FileSystem) (path content : String) : FileSystem :=
  fun p => if p = path then some content else fs p

/-- The option strings registered by the `add_argument` calls of
`main`'s argument parser. -/
def main_arg_flags : List String :=
  ["--language", "--min-stars", "--max-stars", "--min-forks", "--output", "--count"]

/-- Whether the command line parser of `main` knows a given option
string. -/
def accepts_flag (f : String) : Bool := main_arg_flags.contains f

/-- The parsed command-line arguments of `main`. -/
structure Args where
  language : String
  min_stars : Int
  max_stars : Int
  min_forks : Int
  output : Option String
  count : Bool

/-- The generated output file name used when `--output` is absent. -/
def default_output (a : Args) : String :=
  a.language ++ "_repos_" ++ toString a.min_stars ++ "-" ++ toString a.max_stars
    ++ "_stars.csv"

/-- The external world one run of `main` interacts with: the
environment, the responses of the count query, of every search page, of
every enrichment sub-request (indexed by the repository's 1-based
position), and of the final rate-limit query. -/
structure World where
  getenv : String → Option String
  count_resp : CountResponse
  search : Nat → SearchResponse Repo
  contrib : Nat → SubOutcome
  commits : Nat → SubOutcome
  rate_resp : RateResponse

/-- Steps 2-4 of `main` once the fetch has produced a repository list
and its effects: either the empty-result early return, or enrichment,
CSV export and the final rate-limit report. -/
def main_fetched (args : Args) (w : World) (repos : List Repo)
    (fetchEffs : List Effect) : List Effect :=
  let output := args.output.getD (default_output args)
  let pre := (get_repo_count w.getenv w.count_resp).2
    ++ [Effect.printLine "Fetching repositories..."] ++ fetchEffs
  if repos.isEmpty then
    pre ++ [Effect.printLine "No repositories found. Exiting..."]
  else
    pre ++ [Effect.printLine "Processing repositories..."]
      ++ (process_repos w.getenv repos.length repos 1 w.contrib w.commits).2
      ++ [Effect.printLine ("Saving data to " ++ output ++ "...")]
      ++ [Effect.fileWrite output
            (save_to_csv (process_repos w.getenv repos.length repos 1 w.contrib w.commits).1)]
      ++ [Effect.printLine "Completed processing. Data saved successfully!"]
      ++ display_final_rate_limit w.getenv w.rate_resp

/-- `main` of `src/main.py` as the list of effects of one run: count
query first (unconditionally), then either the `--count` report, or the
fetch followed by `main_fetched`.  `none` means the pagination loop ran
out of fuel. -/
def main (args : Args) (w : World) (fuel : Nat) : Option (List Effect) :=
  if args.count then
    some ((get_repo_count w.getenv w.count_resp).2 ++
      [Effect.printLine ("Total repositories matching the query: "
        ++ toString (get_repo_count w.getenv w.count_resp).1)])
  else
    (fetch_repositories w.getenv w.search fuel).map
      (fun pr => main_fetched args w pr.1 pr.2)

/-- A server holding exactly `n` distinct repositories (represented by
their indices), served 100 per page in order: the honest paginated
behaviour of the search endpoint for a filter with `n` total matches. -/
def honest_search (n : Nat) (page : Nat) : SearchResponse Nat :=
  ⟨200, ((List.range n).drop (100 * (page - 1))).take 100, ""⟩

/-- The concatenated `items` of pages `1..p` of a search server. -/
def items_upto {α : Type} (server : Nat → SearchResponse α) (p : Nat) : List α :=
  (List.range p).flatMap (fun i => (server (i + 1)).items)

/-! ## Concrete runs used by witnesses and counterexamples -/

/-- An environment with no variables set. -/
def sample_getenv : String → Option String := fun _ => none

/-- An environment holding a GitHub token. -/
def token_env : String → Option String :=
  fun s => if s = "GITHUB_TOKEN" then some "abc" else none

/-- One concrete search-result item. -/
def sample_repo : Repo :=
  ⟨"alpha", 1200, 34, "https://example.com/alpha", some "d", false,
    "https://api.example.com/repos/o/alpha/contributors",
    "https://api.example.com/repos/o/alpha/commits\x7b/sha\x7d"⟩

/-- A failing response of the count query. -/
def err_count_resp : CountResponse := ⟨500, 42, "oops", "rl"⟩

/-- A world whose search result is empty and whose count query
succeeds with 3 matches. -/
def sample_world : World :=
  ⟨sample_getenv, ⟨200, 3, "", "rl"⟩, fun _ => ⟨200, [], ""⟩,
    fun _ => SubOutcome.ok 200 0, fun _ => SubOutcome.ok 200 0, ⟨200, "final"⟩⟩

/-- Arguments with the count flag set. -/
def sample_args_count : Args := ⟨"rust", 1000, 5000, 0, none, true⟩

/-- Arguments without the count flag. -/
def sample_args_fetch : Args := ⟨"rust", 1000, 5000, 0, some "out.csv", false⟩

/-! ## Shape of the effect traces of each component -/

theorem get_repo_count_effects (getenv : String → Option String) (resp : CountResponse) :
    ∃ tailE, (get_repo_count getenv resp).2
        = Effect.countRequest (get_headers getenv) :: tailE
      ∧ ∀ e ∈ tailE, ∃ s, e = Effect.printLine s := by
  unfold get_repo_count
  by_cases h : resp.status_code = 200
  · refine ⟨[Effect.printLine resp.rate_limit_line], by simp [h], ?_⟩
    intro e he
    simp at he
    exact ⟨_, he⟩
  · refine ⟨[Effect.printLine resp.rate_limit_line,
      Effect.printLine ("Error: " ++ toString resp.status_code ++ " - " ++ resp.text)],
      by simp [h], ?_⟩
    intro e he
    simp at he
    rcases he with he | he
    · exact ⟨_, he⟩
    · exact ⟨_, he⟩

theorem fetchLoop_effects {α : Type} (getenv : String → Option String)
    (server : Nat → SearchResponse α) :
    ∀ fuel page acc effs rs out,
      fetchLoop getenv server fuel page acc effs = some (rs, out) →
      ∃ newE, out = effs ++ newE
        ∧ ∀ e ∈ newE, (∃ p, e = Effect.searchRequest p (get_headers getenv))
            ∨ ∃ s, e = Effect.printLine s := by
  intro fuel
  induction fuel with
  | zero =>
    intro page acc effs rs out h
    simp [fetchLoop] at h
  | succ f ih =>
    intro page acc effs rs out h
    simp only [fetchLoop] at h
    by_cases hs : (server page).status_code = 200
    · rw [if_pos hs] at h
      by_cases hl : (server page).items.length < 100
      · rw [if_pos hl] at h
        simp only [Option.some.injEq, Prod.mk.injEq] at h
        obtain ⟨h1, h2⟩ := h
        refine ⟨_, h2.symm, ?_⟩
        intro e he
        simp at he
        rcases he with he | he
        · exact Or.inl ⟨page, he⟩
        · exact Or.inr ⟨_, he⟩
      · rw [if_neg hl] at h
        obtain ⟨newE, hout, hnew⟩ := ih _ _ _ _ _ h
        refine ⟨[Effect.searchRequest page (get_headers getenv),
          Effect.printLine ("Fetched " ++ toString (acc ++ (server page).items).length
            ++ " repositories so far...")] ++ newE, by rw [hout]; simp, ?_⟩
        intro e he
        rcases List.mem_append.mp he with he | he
        · simp at he
          rcases he with he | he
          · exact Or.inl ⟨page, he⟩
          · exact Or.inr ⟨_, he⟩
        · exact hnew e he
    · rw [if_neg hs] at h
      simp only [Option.some.injEq, Prod.mk.injEq] at h
      obtain ⟨h1, h2⟩ := h
      refine ⟨_, h2.symm, ?_⟩
      intro e he
      simp at he
      rcases he with he | he
      · exact Or.inl ⟨page, he⟩
      · exact Or.inr ⟨_, he⟩

theorem sub_log_effects (what name : String) (o : SubOutcome) :
    ∀ e ∈ sub_log what name o, ∃ s, e = Effect.printLine s := by
  cases o with
  | throws msg =>
    intro e he
    simp [sub_log] at he
    exact ⟨_, he⟩
  | ok s n =>
    intro e he
    simp [sub_log] at he

theorem fetch_additional_details_effects (getenv : String → Option String)
    (repo : Repo) (contrib commits : SubOutcome) :
    ∀ e ∈ (fetch_additional_details getenv repo contrib commits).2,
      (∃ u, e = Effect.contribRequest u (get_headers getenv))
      ∨ (∃ u, e = Effect.commitsRequest u (get_headers getenv))
      ∨ ∃ s, e = Effect.printLine s := by
  intro e he
  simp only [fetch_additional_details] at he
  rcases List.mem_append.mp he with he | he
  · rcases List.mem_append.mp he with he | he
    · rcases List.mem_append.mp he with he | he
      · rw [List.mem_singleton] at he
        exact Or.inl ⟨_, he⟩
      · exact Or.inr (Or.inr (sub_log_effects _ _ _ e he))
    · rw [List.mem_singleton] at he
      exact Or.inr (Or.inl ⟨_, he⟩)
  · exact Or.inr (Or.inr (sub_log_effects _ _ _ e he))

theorem process_repos_effects (getenv : String → Option String) (total : Nat) :
    ∀ (repos : List Repo) (idx : Nat) (contrib commits : Nat → SubOutcome),
      ∀ e ∈ (process_repos getenv total repos idx contrib commits).2,
        (∃ u, e = Effect.contribRequest u (get_headers getenv))
        ∨ (∃ u, e = Effect.commitsRequest u (get_headers getenv))
        ∨ ∃ s, e = Effect.printLine s := by
  intro repos
  induction repos with
  | nil =>
    intro idx contrib commits e he
    simp [process_repos] at he
  | cons repo rest ih =>
    intro idx contrib commits e he
    simp only [process_repos] at he
    rcases List.mem_append.mp he with he | he
    · rcases List.mem_append.mp he with he | he
      · exact fetch_additional_details_effects _ _ _ _ e he
      · rw [List.mem_singleton] at he
        exact Or.inr (Or.inr ⟨_, he⟩)
    · exact ih _ _ _ e he

theorem display_final_rate_limit_effects (getenv : String → Option String)
    (resp : RateResponse) :
    ∀ e ∈ display_final_rate_limit getenv resp,
      e = Effect.rateLimitRequest (get_headers getenv) ∨ ∃ s, e = Effect.printLine s := by
  intro e he
  unfold display_final_rate_limit at he
  by_cases h : resp.status_code = 200 <;>
    simp [h] at he <;>
    rcases he with he | he <;>
    first
      | exact Or.inl he
      | exact Or.inr ⟨_, he⟩

/-- Every successful run's trace starts with the count request, and no
other effect in it is a count request; every request effect carries the
headers computed from the environment. -/
theorem main_trace_shape (args : Args) (w : World) (fuel : Nat) (effs : List Effect)
    (h : main args w fuel = some effs) :
    ∃ rest, effs = Effect.countRequest (get_headers w.getenv) :: rest
      ∧ ∀ e ∈ rest, e.isCountRequest = false
        ∧ ∀ hd, e.headers? = some hd → hd = get_headers w.getenv := by
  obtain ⟨tailE, hgrc, htail⟩ := get_repo_count_effects w.getenv w.count_resp
  have hbenign_print : ∀ s : String, (Effect.printLine s).isCountRequest = false
      ∧ ∀ hd, (Effect.printLine s).headers? = some hd → hd = get_headers w.getenv := by
    intro s
    exact ⟨rfl, by simp [Effect.headers?]⟩
  unfold main at h
  by_cases hc : args.count
  · rw [if_pos hc] at h
    rw [hgrc] at h
    obtain rfl := (Option.some.inj h)
    refine ⟨tailE ++ [Effect.printLine ("Total repositories matching the query: "
      ++ toString (get_repo_count w.getenv w.count_resp).1)], by simp, ?_⟩
    intro e he
    rcases List.mem_append.mp he with he | he
    · obtain ⟨s, rfl⟩ := htail e he
      exact hbenign_print s
    · rw [List.mem_singleton] at he
      subst he
      exact hbenign_print _
  · rw [if_neg hc] at h
    cases hfetch : fetch_repositories w.getenv w.search fuel with
    | none =>
      rw [hfetch] at h
      simp at h
    | some pr =>
      obtain ⟨repos, fetchEffs⟩ := pr
      rw [hfetch] at h
      simp only [Option.map_some', Option.some.injEq] at h
      obtain ⟨newE, hfe, hfshape⟩ := fetchLoop_effects w.getenv w.search fuel 1 [] [] _ _ hfetch
      simp only [List.nil_append] at hfe
      subst hfe
      subst h
      unfold main_fetched
      have hfetchE : ∀ e ∈ fetchEffs, Effect.isCountRequest e = false
          ∧ ∀ hd, e.headers? = some hd → hd = get_headers w.getenv := by
        intro e he
        rcases hfshape e he with ⟨p, rfl⟩ | ⟨s, rfl⟩
        · exact ⟨rfl, by simp [Effect.headers?]⟩
        · exact hbenign_print s
      by_cases hrep : repos.isEmpty
      · rw [if_pos hrep, hgrc]
        refine ⟨(tailE ++ [Effect.printLine "Fetching repositories..."] ++ fetchEffs)
          ++ [Effect.printLine "No repositories found. Exiting..."], by simp, ?_⟩
        intro e he
        rcases List.mem_append.mp he with he | he
        · rcases List.mem_append.mp he with he | he
          · rcases List.mem_append.mp he with he | he
            · obtain ⟨s, rfl⟩ := htail e he
              exact hbenign_print s
            · rw [List.mem_singleton] at he
              subst he
              exact hbenign_print _
          · exact hfetchE e he
        · rw [List.mem_singleton] at he
          subst he
          exact hbenign_print _
      · rw [if_neg hrep, hgrc]
        refine ⟨(tailE ++ [Effect.printLine "Fetching repositories..."] ++ fetchEffs)
          ++ [Effect.printLine "Processing repositories..."]
          ++ (process_repos w.getenv repos.length repos 1 w.contrib w.commits).2
          ++ [Effect.printLine ("Saving data to "
                ++ args.output.getD (default_output args) ++ "...")]
          ++ [Effect.fileWrite (args.output.getD (default_output args))
                (save_to_csv (process_repos w.getenv repos.length repos 1
                  w.contrib w.commits).1)]
          ++ [Effect.printLine "Completed processing. Data saved successfully!"]
          ++ display_final_rate_limit w.getenv w.rate_resp, by simp, ?_⟩
        intro e he
        rcases List.mem_append.mp he with he | he
        · rcases List.mem_append.mp he with he | he
          · rcases List.mem_append.mp he with he | he
            · rcases List.mem_append.mp he with he | he
              · rcases List.mem_append.mp he with he | he
                · rcases List.mem_append.mp he with he | he
                  · rcases List.mem_append.mp he with he | he
                    · rcases List.mem_append.mp he with he | he
                      · obtain ⟨s, rfl⟩ := htail e he
                        exact hbenign_print s
                      · rw [List.mem_singleton] at he
                        subst he
                        exact hbenign_print _
                    · exact hfetchE e he
                  · rw [List.mem_singleton] at he
                    subst he
                    exact hbenign_print _
                · rcases process_repos_effects w.getenv _ repos 1 w.contrib w.commits e he
                    with ⟨u, rfl⟩ | ⟨u, rfl⟩ | ⟨s, rfl⟩
                  · exact ⟨rfl, by simp [Effect.headers?]⟩
                  · exact ⟨rfl, by simp [Effect.headers?]⟩
                  · exact hbenign_print s
              · rw [List.mem_singleton] at he
                subst he
                exact hbenign_print _
            · rw [List.mem_singleton] at he
              subst he
              exact ⟨rfl, by simp [Effect.headers?]⟩
          · rw [List.mem_singleton] at he
            subst he
            exact hbenign_print _
        · rcases display_final_rate_limit_effects w.getenv w.rate_resp e he with
            rfl | ⟨s, rfl⟩
          · exact ⟨rfl, by simp [Effect.headers?]⟩
          · exact hbenign_print s

/-! ## C4 -/

/-- C4 counterexample: the argument parser of `main` registers no
`--token` option string, so the command-line interface does not accept a
`--token` flag, contrary to the claim. -/
theorem token_flag_cex : accepts_flag "--token" = false := by decide

/-- C4 (amended): the CLI does not accept a `--token` flag; the
credential is read only from the `GITHUB_TOKEN` environment variable,
and when that variable is set to a non-empty value, every request of a
run carries the resulting `Authorization: token ...` header (an unset
variable yields no header on any request). -/
theorem token_env_only :
    accepts_flag "--token" = false
  ∧ (∀ getenv t, getenv "GITHUB_TOKEN" = some t → ¬ t.isEmpty →
      get_headers getenv = [("Authorization", "token " ++ t)])
  ∧ (∀ getenv : String → Option String, getenv "GITHUB_TOKEN" = none →
      get_headers getenv = [])
  ∧ (∀ args w fuel effs, main args w fuel = some effs →
      ∀ e ∈ effs, ∀ hd, Effect.headers? e = some hd → hd = get_headers w.getenv) := by
  refine ⟨by decide, ?_, ?_, ?_⟩
  · intro getenv t hg ht
    simp [get_headers, hg, ht]
  · intro getenv hg
    simp [get_headers, hg]
  · intro args w fuel effs h e he hd hhd
    obtain ⟨rest, rfl, hrest⟩ := main_trace_shape args w fuel effs h
    rcases List.mem_cons.mp he with rfl | he
    · simp [Effect.headers?] at hhd
      exact hhd.symm
    · exact (hrest e he).2 hd hhd

/-- C4 witness: a concrete environment holding a token yields exactly
the `Authorization: token ...` header. -/
theorem token_env_only_witness :
    get_headers token_env = [("Authorization", "token " ++ "abc")] :=
  token_env_only.2.1 token_env "abc" (by simp [token_env]) (by decide)

/-! ## C9 -/

/-- C9: on any non-2xx response of the count query, `get_repo_count`
logs the status and message and returns 0 - the same total as for a
filter with genuinely zero matches - and a `--count` run then reports
the line "Total repositories matching the query: 0". -/
theorem count_error_zero (getenv : String → Option String) (resp : CountResponse)
    (herr : ¬ (200 ≤ resp.status_code ∧ resp.status_code < 300)) :
    (get_repo_count getenv resp).1 = 0
  ∧ Effect.printLine ("Error: " ++ toString resp.status_code ++ " - " ++ resp.text)
      ∈ (get_repo_count getenv resp).2
  ∧ (∀ zero : CountResponse, zero.status_code = 200 → zero.total_count = 0 →
      (get_repo_count getenv resp).1 = (get_repo_count getenv zero).1)
  ∧ ∀ args w fuel, args.count = true → w.getenv = getenv → w.count_resp = resp →
      ∃ effs, main args w fuel = some effs
        ∧ Effect.printLine "Total repositories matching the query: 0" ∈ effs := by
  have h200 : resp.status_code ≠ 200 := fun hh => herr (by omega)
  refine ⟨?_, ?_, ?_, ?_⟩
  · simp [get_repo_count, h200]
  · simp [get_repo_count, h200]
  · intro zero hz hz0
    simp [get_repo_count, h200, hz, hz0]
  · intro args w fuel hc hg hr
    refine ⟨(get_repo_count w.getenv w.count_resp).2
      ++ [Effect.printLine ("Total repositories matching the query: "
          ++ toString (get_repo_count w.getenv w.count_resp).1)], ?_, ?_⟩
    · unfold main
      rw [if_pos hc]
    · have h1 : (get_repo_count w.getenv w.count_resp).1 = 0 := by
        rw [hg, hr]
        simp [get_repo_count, h200]
      rw [h1]
      have h2 : ("Total repositories matching the query: " ++ toString (0 : Nat))
          = "Total repositories matching the query: 0" := rfl
      rw [h2]
      simp

/-- C9 witness: a concrete 500 response of the count query yields the
total 0. -/
theorem count_error_zero_witness :
    (get_repo_count sample_getenv err_count_resp).1 = 0 :=
  (count_error_zero sample_getenv err_count_resp (by decide)).1

/-! ## C10 -/

/-- C10: every successful run's first effect is the count search query,
whether or not the count flag is given, and it is the only count query
of the run - one search request whose result a non-count run never
uses. -/
theorem count_query_always_first (args : Args) (w : World) (fuel : Nat)
    (effs : List Effect) (h : main args w fuel = some effs) :
    effs.head? = some (Effect.countRequest (get_headers w.getenv))
  ∧ effs.countP (fun e => e.isCountRequest) = 1 := by
  obtain ⟨rest, rfl, hrest⟩ := main_trace_shape args w fuel effs h
  refine ⟨rfl, ?_⟩
  rw [List.countP_cons]
  have h0 : rest.countP (fun e => e.isCountRequest) = 0 :=
    List.countP_eq_zero.mpr (fun e he => by simp [(hrest e he).1])
  rw [h0]
  simp [Effect.isCountRequest]

/-- C10 witness: the trace of a concrete `--count` run starts with the
count request and contains exactly one. -/
theorem count_query_always_first_witness :
    ([Effect.countRequest [], Effect.printLine "rl",
      Effect.printLine "Total repositories matching the query: 3"].head?
        = some (Effect.countRequest (get_headers sample_world.getenv)))
  ∧ ([Effect.countRequest [], Effect.printLine "rl",
      Effect.printLine "Total repositories matching the query: 3"].countP
        (fun e => e.isCountRequest) = 1) :=
  count_query_always_first sample_args_count sample_world 0 _ rfl

/-! ## C5 and C6: the CSV exporter -/

theorem foldl_append_rows (f : RepositoryDetail → String) :
    ∀ (l : List RepositoryDetail) (init : String),
      l.foldl (fun acc r => acc ++ f r) init = init ++ concat_rows (l.map f) := by
  intro l
  induction l with
  | nil =>
    intro init
    simp [concat_rows]
  | cons a l ih =>
    intro init
    rw [List.foldl_cons, ih, List.map_cons]
    show init ++ f a ++ concat_rows (l.map f) = init ++ (f a ++ concat_rows (l.map f))
    rw [String.append_assoc]

theorem save_to_csv_eq (repos : List RepositoryDetail) :
    save_to_csv repos
      = csv_row fieldnames
          ++ concat_rows (repos.map (fun r => csv_row (detail_fields r))) :=
  foldl_append_rows _ repos _

/-- C5: exporting the same record sequence to the same path twice
yields the same file system as exporting it once, the file content is
identical each time, and that content is the header row followed by the
rows of the records in their original order. -/
theorem save_idempotent (fs : FileSystem) (path : String)
    (repos : List RepositoryDetail) :
    fs_write (fs_write fs path (save_to_csv repos)) path (save_to_csv repos)
      = fs_write fs path (save_to_csv repos)
  ∧ fs_write fs path (save_to_csv repos) path = some (save_to_csv repos)
  ∧ save_to_csv repos
      = csv_row fieldnames
          ++ concat_rows (repos.map (fun r => csv_row (detail_fields r))) := by
  refine ⟨?_, ?_, save_to_csv_eq repos⟩
  · funext p
    unfold fs_write
    by_cases h : p = path <;> simp [h]
  · simp [fs_write]

/-- C6: the exported file is the header row followed by exactly one row
per record (in order), the header columns are fixed as name, stars,
forks, url, description, archived, contributors_count,
commits_last_3_months (the code's spellings of contributorCount and
recentCommitCount), each row lists the record's fields in that same
order, and writing replaces whatever the destination file held
before. -/
theorem save_schema (fs : FileSystem) (path : String)
    (repos : List RepositoryDetail) :
    save_to_csv repos
      = csv_row fieldnames
          ++ concat_rows (repos.map (fun r => csv_row (detail_fields r)))
  ∧ (repos.map (fun r => csv_row (detail_fields r))).length = repos.length
  ∧ fieldnames = ["name", "stars", "forks", "url", "description", "archived",
      "contributors_count", "commits_last_3_months"]
  ∧ (∀ r : RepositoryDetail, detail_fields r
      = [r.name, toString r.stars, toString r.forks, r.url, r.description.getD "",
          py_str_bool r.archived, toString r.contributors_count,
          toString r.commits_last_3_months])
  ∧ fs_write fs path (save_to_csv repos) path = some (save_to_csv repos) := by
  refine ⟨save_to_csv_eq repos, by simp, rfl, fun r => rfl, ?_⟩
  simp [fs_write]

/-! ## C3: enrichment failure policy -/

/-- C3 counterexample: a failing (404) contributors sub-request leaves
the contributor count at 0 but logs nothing - the run's effects for
this repository contain no printed line at all - refuting the claim
that every sub-request failure logs an error. -/
theorem enrich_silent_failure_cex :
    (fetch_additional_details sample_getenv sample_repo
        (SubOutcome.ok 404 7) (SubOutcome.ok 200 3)).1.contributors_count = 0
  ∧ (fetch_additional_details sample_getenv sample_repo
        (SubOutcome.ok 404 7) (SubOutcome.ok 200 3)).2.countP
      (fun e => e.isPrint) = 0 := by
  constructor
  · rfl
  · rfl

/-- C3 (amended): an enrichment sub-request that throws or times out
(raises an exception) leaves the corresponding count at 0 and logs an
error line; one that returns a non-200 status also leaves the count at
0 but logs nothing; in both cases processing continues - the enrichment
loop yields one detail record per repository - and each repository's
record is determined solely by its own search item and its own two
sub-request outcomes. -/
theorem enrich_failure_policy :
    (∀ (getenv : String → Option String) (repo : Repo) (msg : String)
        (commits : SubOutcome),
      (fetch_additional_details getenv repo (SubOutcome.throws msg)
          commits).1.contributors_count = 0
      ∧ Effect.printLine ("Error fetching contributors for " ++ repo.name ++ ": " ++ msg)
          ∈ (fetch_additional_details getenv repo (SubOutcome.throws msg) commits).2)
  ∧ (∀ (getenv : String → Option String) (repo : Repo) (s : Nat) (n : Nat)
        (commits : SubOutcome), s ≠ 200 →
      (fetch_additional_details getenv repo (SubOutcome.ok s n)
          commits).1.contributors_count = 0
      ∧ (fetch_additional_details getenv repo (SubOutcome.ok s n) commits).2.countP
            (fun e => e.isPrint)
          = (fetch_additional_details getenv repo (SubOutcome.ok 200 0) commits).2.countP
            (fun e => e.isPrint))
  ∧ (∀ (getenv : String → Option String) (repo : Repo) (contrib : SubOutcome)
        (msg : String),
      (fetch_additional_details getenv repo contrib
          (SubOutcome.throws msg)).1.commits_last_3_months = 0
      ∧ Effect.printLine ("Error fetching commits for " ++ repo.name ++ ": " ++ msg)
          ∈ (fetch_additional_details getenv repo contrib (SubOutcome.throws msg)).2)
  ∧ (∀ (getenv : String → Option String) (repo : Repo) (contrib : SubOutcome)
        (s : Nat) (n : Nat), s ≠ 200 →
      (fetch_additional_details getenv repo contrib
          (SubOutcome.ok s n)).1.commits_last_3_months = 0)
  ∧ (∀ (getenv : String → Option String) (total : Nat) (repos : List Repo)
        (startIdx : Nat) (contrib commits : Nat → SubOutcome),
      (process_repos getenv total repos startIdx contrib commits).1.length = repos.length
      ∧ ∀ i : Nat,
          (process_repos getenv total repos startIdx contrib commits).1[i]?
            = (repos[i]?).map (fun r => make_detailed_repo r
                (fetch_additional_details getenv r (contrib (startIdx + i))
                  (commits (startIdx + i))).1)) := by
  refine ⟨?_, ?_, ?_, ?_, ?_⟩
  · intro getenv repo msg commits
    refine ⟨rfl, ?_⟩
    simp [fetch_additional_details, sub_log]
  · intro getenv repo s n commits hs
    constructor
    · simp [fetch_additional_details, sub_count, hs]
    · rfl
  · intro getenv repo contrib msg
    refine ⟨rfl, ?_⟩
    simp [fetch_additional_details, sub_log]
  · intro getenv repo contrib s n hs
    simp [fetch_additional_details, sub_count, hs]
  · intro getenv total repos
    induction repos with
    | nil =>
      intro startIdx contrib commits
      refine ⟨rfl, ?_⟩
      intro i
      simp [process_repos]
    | cons repo rest ih =>
      intro startIdx contrib commits
      refine ⟨?_, ?_⟩
      · simp only [process_repos, List.length_cons]
        rw [(ih (startIdx + 1) contrib commits).1]
      · intro i
        cases i with
        | zero =>
          simp [process_repos]
        | succ j =>
          have := (ih (startIdx + 1) contrib commits).2 j
          simp only [process_repos, List.getElem?_cons_succ]
          rw [this]
          have harith : startIdx + 1 + j = startIdx + (j + 1) := by omega
          rw [harith]

/-- C3 witness: a concrete non-200 contributors sub-request yields a
contributor count of 0. -/
theorem enrich_failure_policy_witness :
    (fetch_additional_details sample_getenv sample_repo
        (SubOutcome.ok 451 9) (SubOutcome.ok 200 2)).1.contributors_count = 0
  ∧ (fetch_additional_details sample_getenv sample_repo
        (SubOutcome.ok 451 9) (SubOutcome.ok 200 2)).2.countP
        (fun e => e.isPrint)
      = (fetch_additional_details sample_getenv sample_repo
          (SubOutcome.ok 200 0) (SubOutcome.ok 200 2)).2.countP
        (fun e => e.isPrint) :=
  enrich_failure_policy.2.1 sample_getenv sample_repo 451 9
    (SubOutcome.ok 200 2) (by decide)

/-! ## C1: pagination against an honest server -/

theorem items_upto_succ {α : Type} (server : Nat → SearchResponse α) (n : Nat) :
    items_upto server (n + 1) = items_upto server n ++ (server (n + 1)).items := by
  unfold items_upto
  rw [List.range_succ, List.flatMap_append]
  simp

theorem fetchLoop_honest (getenv : String → Option String) (N : Nat) :
    ∀ fuel page acc effs, 1 ≤ page → (N - 100 * (page - 1)) / 100 + 1 ≤ fuel →
      ∃ newE,
        fetchLoop getenv (honest_search N) fuel page acc effs
          = some (acc ++ (List.range N).drop (100 * (page - 1)), effs ++ newE)
        ∧ newE.countP (fun e => e.isSearchRequest) = (N - 100 * (page - 1)) / 100 + 1 := by
  intro fuel
  induction fuel with
  | zero =>
    intro page acc effs hp hf
    exact absurd hf (by omega)
  | succ f ih =>
    intro page acc effs hp hf
    have hlen : ((honest_search N page).items).length = min 100 (N - 100 * (page - 1)) := by
      simp [honest_search]
    have hstat : (honest_search N page).status_code = 200 := rfl
    by_cases hM : N - 100 * (page - 1) < 100
    · have hlt : ((honest_search N page).items).length < 100 := by
        rw [hlen]; omega
      have hitems : (honest_search N page).items
          = (List.range N).drop (100 * (page - 1)) := by
        show ((List.range N).drop (100 * (page - 1))).take 100
          = (List.range N).drop (100 * (page - 1))
        apply List.take_of_length_le
        simp
        omega
      refine ⟨[Effect.searchRequest page (get_headers getenv),
        Effect.printLine ("Fetched "
          ++ toString (acc ++ (honest_search N page).items).length
          ++ " repositories so far...")], ?_, ?_⟩
      · simp only [fetchLoop, hstat, if_pos, hlt, if_true, reduceIte]
        rw [hitems]
      · simp [Effect.isSearchRequest, Effect.isPrint]
        omega
    · have h100 : ((honest_search N page).items).length = 100 := by
        rw [hlen]; omega
      have hnotlt : ¬ ((honest_search N page).items).length < 100 := by
        rw [h100]; omega
      obtain ⟨newE, heq, hcount⟩ := ih (page + 1)
        (acc ++ (honest_search N page).items)
        (effs ++ [Effect.searchRequest page (get_headers getenv),
          Effect.printLine ("Fetched "
            ++ toString (acc ++ (honest_search N page).items).length
            ++ " repositories so far...")])
        (by omega) (by omega)
      refine ⟨[Effect.searchRequest page (get_headers getenv),
        Effect.printLine ("Fetched "
          ++ toString (acc ++ (honest_search N page).items).length
          ++ " repositories so far...")] ++ newE, ?_, ?_⟩
      · simp only [fetchLoop, hstat, reduceIte, hnotlt, if_false]
        rw [heq]
        have hdrop : (honest_search N page).items
            ++ (List.range N).drop (100 * (page + 1 - 1))
            = (List.range N).drop (100 * (page - 1)) := by
          have hidx : 100 * (page + 1 - 1) = 100 * (page - 1) + 100 := by omega
          rw [hidx, ← List.drop_drop]
          show ((List.range N).drop (100 * (page - 1))).take 100
            ++ ((List.range N).drop (100 * (page - 1))).drop 100
            = (List.range N).drop (100 * (page - 1))
          exact List.take_append_drop 100 _
        rw [List.append_assoc acc, hdrop, List.append_assoc effs]
      · rw [List.countP_append, hcount]
        have : ([Effect.searchRequest page (get_headers getenv),
          Effect.printLine ("Fetched "
            ++ toString (acc ++ (honest_search N page).items).length
            ++ " repositories so far...")]).countP (fun e => e.isSearchRequest) = 1 := by
          simp [Effect.isSearchRequest, Effect.isPrint]
        rw [this]
        omega

/-- C1 counterexample: for a total match count of exactly 100 the
fetcher issues 2 search requests, not ceil(100/100) = 1: the full first
page forces a second request, which returns an empty page. -/
theorem fetch_pagination_cex :
    (fetch_repositories sample_getenv (honest_search 100) 10).map
        (fun pr => pr.2.countP (fun e => e.isSearchRequest)) = some 2
  ∧ 2 ≠ (100 + 99) / 100 := by
  obtain ⟨newE, heq, hcount⟩ :=
    fetchLoop_honest sample_getenv 100 10 1 [] [] (by omega) (by omega)
  constructor
  · unfold fetch_repositories
    rw [heq]
    simp only [Option.map_some', List.nil_append]
    rw [hcount]
  · decide

/-- C1 (amended): for every total match count N with page size 100, the
fetcher issues exactly N / 100 + 1 search requests - equal to
ceil(N/100) when 100 does not divide N, and one more than ceil(N/100)
when it does (including N = 0) - the last of which returns N mod 100
items (0 items when 100 divides N), and then terminates with all N
repositories. -/
theorem fetch_pagination (N fuel : Nat) (getenv : String → Option String)
    (hfuel : N / 100 + 1 ≤ fuel) :
    ∃ effs, fetch_repositories getenv (honest_search N) fuel
        = some (List.range N, effs)
      ∧ effs.countP (fun e => e.isSearchRequest) = N / 100 + 1
      ∧ (honest_search N (N / 100 + 1)).items.length = N % 100 := by
  obtain ⟨newE, heq, hcount⟩ :=
    fetchLoop_honest getenv N fuel 1 [] [] (by omega) (by simpa using hfuel)
  refine ⟨newE, ?_, ?_, ?_⟩
  · unfold fetch_repositories
    rw [heq]
    simp
  · simpa using hcount
  · simp [honest_search]
    omega

/-- C1 witness: 5 total matches are fetched in one request returning
5 items. -/
theorem fetch_pagination_witness :
    ∃ effs, fetch_repositories sample_getenv (honest_search 5) 2
        = some (List.range 5, effs)
      ∧ effs.countP (fun e => e.isSearchRequest) = 5 / 100 + 1
      ∧ (honest_search 5 (5 / 100 + 1)).items.length = 5 % 100 :=
  fetch_pagination 5 2 sample_getenv (by omega)

/-! ## C2: early stop on an error response -/

theorem fetchLoop_error {α : Type} (getenv : String → Option String)
    (server : Nat → SearchResponse α) (p : Nat)
    (hfull : ∀ q, 1 ≤ q → q < p →
      (server q).status_code = 200 ∧ (server q).items.length = 100)
    (herr : (server p).status_code ≠ 200) :
    ∀ fuel page, 1 ≤ page → page ≤ p → p - page + 1 ≤ fuel →
      ∀ effs,
        ∃ newE,
          fetchLoop getenv server fuel page (items_upto server (page - 1)) effs
            = some (items_upto server (p - 1), effs ++ newE)
          ∧ newE.countP (fun e => e.isSearchRequest) = p - page + 1
          ∧ newE.getLast? = some (Effect.printLine ("Error: "
              ++ toString (server p).status_code ++ " - " ++ (server p).text)) := by
  intro fuel
  induction fuel with
  | zero =>
    intro page hp1 hp2 hf effs
    exact absurd hf (by omega)
  | succ f ih =>
    intro page hp1 hp2 hf effs
    by_cases hpp : page = p
    · subst hpp
      refine ⟨[Effect.searchRequest page (get_headers getenv),
        Effect.printLine ("Error: " ++ toString (server page).status_code ++ " - "
          ++ (server page).text)], ?_, ?_, ?_⟩
      · simp only [fetchLoop, herr, if_false, reduceIte]
      · simp [Effect.isSearchRequest, Effect.isPrint]
      · rfl
    · have hlt : page < p := lt_of_le_of_ne hp2 hpp
      obtain ⟨hs, hl⟩ := hfull page hp1 hlt
      have hnotlt : ¬ (server page).items.length < 100 := by
        rw [hl]; omega
      have hacc : items_upto server (page - 1) ++ (server page).items
          = items_upto server (page + 1 - 1) := by
        have hpage : page - 1 + 1 = page := by omega
        have := items_upto_succ server (page - 1)
        rw [hpage] at this
        rw [← this]
        congr 1
      obtain ⟨newE, heq, hcount, hlast⟩ := ih (page + 1) (by omega) (by omega) (by omega)
        (effs ++ [Effect.searchRequest page (get_headers getenv),
          Effect.printLine ("Fetched "
            ++ toString (items_upto server (page - 1) ++ (server page).items).length
            ++ " repositories so far...")])
      have hne : newE ≠ [] := by
        intro hnil
        rw [hnil] at hlast
        simp at hlast
      refine ⟨[Effect.searchRequest page (get_headers getenv),
        Effect.printLine ("Fetched "
          ++ toString (items_upto server (page - 1) ++ (server page).items).length
          ++ " repositories so far...")] ++ newE, ?_, ?_, ?_⟩
      · simp only [fetchLoop, hs, reduceIte, hnotlt, if_false]
        rw [hacc] at heq ⊢
        rw [heq, List.append_assoc effs]
      · rw [List.countP_append, hcount]
        have h2 : ([Effect.searchRequest page (get_headers getenv),
          Effect.printLine ("Fetched "
            ++ toString (items_upto server (page - 1) ++ (server page).items).length
            ++ " repositories so far...")]).countP (fun e => e.isSearchRequest) = 1 := by
          simp [Effect.isSearchRequest, Effect.isPrint]
        rw [h2]
        omega
      · rw [List.getLast?_append, hlast]
        rfl

/-- C2: when every page before p is a full successful page and page p
answers with a non-2xx status, the fetcher stops after exactly p
requests, its last logged line is the error with that status and
message, and it returns all repositories accumulated from the p-1
earlier successful pages. -/
theorem fetch_error_partial {α : Type} (getenv : String → Option String)
    (server : Nat → SearchResponse α) (p fuel : Nat)
    (hp : 1 ≤ p)
    (hfull : ∀ q, 1 ≤ q → q < p →
      (server q).status_code = 200 ∧ (server q).items.length = 100)
    (herr : ¬ (200 ≤ (server p).status_code ∧ (server p).status_code < 300))
    (hfuel : p ≤ fuel) :
    ∃ effs,
      fetch_repositories getenv server fuel = some (items_upto server (p - 1), effs)
      ∧ effs.countP (fun e => e.isSearchRequest) = p
      ∧ effs.getLast? = some (Effect.printLine ("Error: "
          ++ toString (server p).status_code ++ " - " ++ (server p).text)) := by
  have h200 : (server p).status_code ≠ 200 := fun hh => herr (by omega)
  obtain ⟨newE, heq, hcount, hlast⟩ :=
    fetchLoop_error getenv server p hfull h200 fuel 1 (by omega) hp (by omega) []
  have h0 : items_upto server (1 - 1) = [] := by
    simp [items_upto]
  rw [h0] at heq
  refine ⟨newE, ?_, ?_, ?_⟩
  · unfold fetch_repositories
    rw [heq]
    simp
  · have : p - 1 + 1 = p := by omega
    rw [this] at hcount
    exact hcount
  · exact hlast

/-- A server whose first page is full and whose second page fails with
status 500. -/
def err_server : Nat → SearchResponse Nat :=
  fun page => if page = 1 then ⟨200, List.range 100, ""⟩ else ⟨500, [], "boom"⟩

/-- C2 witness: against a server failing on page 2, the fetcher returns
the 100 repositories of page 1 after 2 requests, ending with the logged
error. -/
theorem fetch_error_partial_witness :
    ∃ effs,
      fetch_repositories sample_getenv err_server 2
        = some (items_upto err_server 1, effs)
      ∧ effs.countP (fun e => e.isSearchRequest) = 2
      ∧ effs.getLast? = some (Effect.printLine ("Error: "
          ++ toString (err_server 2).status_code ++ " - " ++ (err_server 2).text)) :=
  fetch_error_partial sample_getenv err_server 2 2 (by omega)
    (fun q h1 h2 => by
      have hq : q = 1 := by omega
      subst hq
      exact ⟨rfl, by simp [err_server]⟩)
    (by decide)
    (by omega)

/-! ## C7: the count flag short-circuits the run -/

/-- C7: with the count flag set, the run prints the reported total and
stops: its trace holds no enrichment request, no file write, and not
even a pagination search request. -/
theorem count_flag_no_side_effects (args : Args) (w : World) (fuel : Nat)
    (hc : args.count = true) :
    ∃ effs, main args w fuel = some effs
      ∧ Effect.printLine ("Total repositories matching the query: "
          ++ toString (get_repo_count w.getenv w.count_resp).1) ∈ effs
      ∧ effs.countP (fun e => e.isEnrichmentRequest) = 0
      ∧ effs.countP (fun e => e.isFileWrite) = 0
      ∧ effs.countP (fun e => e.isSearchRequest) = 0 := by
  obtain ⟨tailE, hgrc, htail⟩ := get_repo_count_effects w.getenv w.count_resp
  refine ⟨(get_repo_count w.getenv w.count_resp).2
    ++ [Effect.printLine ("Total repositories matching the query: "
        ++ toString (get_repo_count w.getenv w.count_resp).1)], ?_, ?_, ?_, ?_, ?_⟩
  · unfold main
    rw [if_pos hc]
  · exact List.mem_append_right _ (List.mem_singleton.mpr rfl)
  all_goals {
    apply List.countP_eq_zero.mpr
    intro e he
    rcases List.mem_append.mp he with he | he
    · rw [hgrc] at he
      rcases List.mem_cons.mp he with rfl | he
      · simp [Effect.isEnrichmentRequest, Effect.isFileWrite, Effect.isSearchRequest]
      · obtain ⟨s, rfl⟩ := htail e he
        simp [Effect.isEnrichmentRequest, Effect.isFileWrite, Effect.isSearchRequest]
    · rw [List.mem_singleton] at he
      subst he
      simp [Effect.isEnrichmentRequest, Effect.isFileWrite, Effect.isSearchRequest]
  }

/-- C7 witness: a concrete count-flag run makes no enrichment request
and writes no file. -/
theorem count_flag_no_side_effects_witness :
    ∃ effs, main sample_args_count sample_world 0 = some effs
      ∧ Effect.printLine ("Total repositories matching the query: "
          ++ toString (get_repo_count sample_world.getenv sample_world.count_resp).1)
          ∈ effs
      ∧ effs.countP (fun e => e.isEnrichmentRequest) = 0
      ∧ effs.countP (fun e => e.isFileWrite) = 0
      ∧ effs.countP (fun e => e.isSearchRequest) = 0 :=
  count_flag_no_side_effects sample_args_count sample_world 0 rfl

/-! ## C8: empty result set -/

/-- C8: without the count flag, when the first page answers 200 with no
items, the run prints the line "No repositories found. Exiting..."
(whose text starts with "No repositories found"), performs no
enrichment request and writes no file, and ends as a normal
(some-valued) run. -/
theorem empty_result_no_export (args : Args) (w : World) (fuel : Nat)
    (hc : args.count = false)
    (hs : (w.search 1).status_code = 200)
    (hi : (w.search 1).items = [])
    (hfuel : 1 ≤ fuel) :
    ∃ effs, main args w fuel = some effs
      ∧ Effect.printLine ("No repositories found" ++ ". Exiting...") ∈ effs
      ∧ effs.countP (fun e => e.isEnrichmentRequest) = 0
      ∧ effs.countP (fun e => e.isFileWrite) = 0 := by
  obtain ⟨f, rfl⟩ : ∃ f, fuel = f + 1 := ⟨fuel - 1, by omega⟩
  obtain ⟨tailE, hgrc, htail⟩ := get_repo_count_effects w.getenv w.count_resp
  have hfe : fetch_repositories w.getenv w.search (f + 1)
      = some (([] : List Repo), [Effect.searchRequest 1 (get_headers w.getenv),
          Effect.printLine ("Fetched " ++ toString (0 : Nat)
            ++ " repositories so far...")]) := by
    unfold fetch_repositories
    norm_num [fetchLoop, hs, hi]
  obtain ⟨newE, hE, hshape⟩ := fetchLoop_effects w.getenv w.search (f + 1) 1 [] [] _ _ hfe
  simp only [List.nil_append] at hE
  refine ⟨main_fetched args w [] ([Effect.searchRequest 1 (get_headers w.getenv),
    Effect.printLine ("Fetched " ++ toString (0 : Nat)
      ++ " repositories so far...")]), ?_, ?_, ?_, ?_⟩
  · simp only [main, hc, Bool.false_eq_true, if_false, hfe, Option.map_some']
  · unfold main_fetched
    rw [show ("No repositories found" ++ ". Exiting...")
      = "No repositories found. Exiting..." from rfl]
    simp
  all_goals {
    unfold main_fetched
    simp only [List.isEmpty_nil, if_true, reduceIte]
    apply List.countP_eq_zero.mpr
    intro e he
    rcases List.mem_append.mp he with he | he
    · rcases List.mem_append.mp he with he | he
      · rcases List.mem_append.mp he with he | he
        · rw [hgrc] at he
          rcases List.mem_cons.mp he with rfl | he
          · simp [Effect.isEnrichmentRequest, Effect.isFileWrite]
          · obtain ⟨s, rfl⟩ := htail e he
            simp [Effect.isEnrichmentRequest, Effect.isFileWrite]
        · rw [List.mem_singleton] at he
          subst he
          simp [Effect.isEnrichmentRequest, Effect.isFileWrite]
      · rw [← hE] at hshape
        rcases hshape e he with ⟨p, rfl⟩ | ⟨s, rfl⟩
        · simp [Effect.isEnrichmentRequest, Effect.isFileWrite]
        · simp [Effect.isEnrichmentRequest, Effect.isFileWrite]
    · rw [List.mem_singleton] at he
      subst he
      simp [Effect.isEnrichmentRequest, Effect.isFileWrite]
  }

/-- C8 witness: a concrete run whose filter matches nothing prints the
no-results line and neither enriches nor writes. -/
theorem empty_result_no_export_witness :
    ∃ effs, main sample_args_fetch sample_world 1 = some effs
      ∧ Effect.printLine ("No repositories found" ++ ". Exiting...") ∈ effs
      ∧ effs.countP (fun e => e.isEnrichmentRequest) = 0
      ∧ effs.countP (fun e => e.isFileWrite) = 0 :=
  empty_result_no_export sample_args_fetch sample_world 1 rfl rfl rfl (by omega)

end GhTopProjects
